import Mathlib

/-!
Verification of the static-analysis core of `aws-sdk-compile-checks`.

The development shallowly embeds the Rust sources of the procedural macro
crate (`visitor.rs`, `required_properties.rs`, `lib.rs`) in Lean:

* Rust `HashMap`s are embedded as association lists whose order stands for
  the (run-dependent) iteration order of the hash table; `get`/`contains_key`
  are order-independent lookups, while `keys()`/`values()` iteration follows
  the list order.
* The `HashSet<Client>` of inferred clients is embedded as a `List Client`
  whose order stands for the set's iteration order.
* `proc_macro2::Span` is embedded as a `Nat` tag carried by each call site.
* The `while` loop of `MethodVisitor::find_improper_usages` is embedded with
  explicit fuel; the Bool in the result is `true` when the loop returned
  normally and `false` when the fuel ran out (i.e. the Rust loop would not
  have terminated within that many iterations).
* Rust string primitives (`split`, `split_whitespace`, `replace`,
  `contains`, `starts_with`) are embedded as structurally recursive
  functions over the character list of the string.
-/

/-- A recorded method call: `MethodCallWithReceiver` from `visitor.rs`.
The `span` field stands for the `proc_macro2` span of the method ident. -/
structure MethodCallWithReceiver where
  method_call : String
  receiver : Option String
  span : Nat
deriving DecidableEq, Repr

/-- A client hint: `struct Client` from `visitor.rs`. -/
structure Client where
  name : Option String
  sdk : Option String
deriving DecidableEq, Repr

/-- The findings produced by the analysis: `UsageFinds` from `findings.rs`,
with `ImproperUsage` and `UnknownUsage` inlined (fields in source order). -/
inductive UsageFinds where
  | improper (span : Nat) (method : String) (missing : List String) (sdk : String)
  | unknown (span : Nat) (method : String) (sdks : List String)
deriving DecidableEq, Repr

deriving instance DecidableEq for Except

/-- The per-method service map `HashMap<&str, Vec<&str>>`, embedded as an
association list in hash-iteration order. -/
abbrev ServiceMap := List (String × List String)

/-- `RequiredPropertiesMap` from `required_properties.rs`:
method name to service map. -/
abbrev RequiredPropertiesMap := List (String × ServiceMap)

/-- HashMap `get`: the first binding of the key in the association list. -/
def assocGet (m : List (String × α)) (k : String) : Option α :=
  match m with
  | [] => none
  | (k', v) :: rest => if k' == k then some v else assocGet rest k

/-- HashMap `entry(k).or_default()` followed by an update `f` of the value:
mutates the binding in place, appending a fresh binding if absent. -/
def assocUpdate (k : String) (f : α → α) (d : α) : List (String × α) → List (String × α)
  | [] => [(k, f d)]
  | (k', v) :: rest =>
    if k' == k then (k', f v) :: rest else (k', v) :: assocUpdate k f d rest

/-! ### Rust string primitives over character lists -/

/-- Rust `str::split(sep)` on the character list: splits at every character
satisfying `p`, keeping empty pieces. -/
def chSplit (p : Char → Bool) : List Char → List (List Char)
  | [] => [[]]
  | c :: cs =>
    match chSplit p cs with
    | [] => [[c]]
    | h :: t => if p c then [] :: h :: t else (c :: h) :: t

/-- Rust `str::replace(pat, "")`: removes every non-overlapping occurrence of
`pat`, scanning left to right. The fuel is the length of the scanned list. -/
def chRemove (pat : List Char) : Nat → List Char → List Char
  | 0, l => l
  | _ + 1, [] => []
  | fuel + 1, c :: cs =>
    if pat.isPrefixOf (c :: cs) then chRemove pat fuel ((c :: cs).drop pat.length)
    else c :: chRemove pat fuel cs

/-- Rust `str::contains(pat)` (substring containment). -/
def chIsInfix (pat : List Char) : List Char → Bool
  | [] => pat.isEmpty
  | c :: cs => pat.isPrefixOf (c :: cs) || chIsInfix pat cs

/-- Rust `str::split(sep)` producing strings. -/
def strSplitOn (sep : Char) (s : String) : List String :=
  (chSplit (fun c => c == sep) s.data).map String.mk

/-- Rust `str::replace(pat, "")` producing a string. -/
def strRemove (s pat : String) : String :=
  String.mk (chRemove pat.data s.data.length s.data)

/-- Rust `str::contains(pat)`. -/
def strContainsSub (s pat : String) : Bool :=
  chIsInfix pat.data s.data

/-- Rust `str::starts_with(pat)`. -/
def strStarts (s pat : String) : Bool :=
  pat.data.isPrefixOf s.data

/-- Rust `str::split_whitespace`: whitespace-separated words. -/
def strSplitWhitespace (s : String) : List String :=
  ((chSplit Char.isWhitespace s.data).filter (fun t => !t.isEmpty)).map String.mk

/-- Lexicographic comparison of character lists by code point, which is
Rust's `str` ordering (UTF-8 byte order preserves code-point order). -/
def chListLt : List Char → List Char → Bool
  | _, [] => false
  | [], _ :: _ => true
  | a :: as, b :: bs =>
    a.toNat < b.toNat || (a.toNat == b.toNat && chListLt as bs)

/-- Rust string comparison `a < b`. -/
def strLt (a b : String) : Bool :=
  chListLt a.data b.data

/-- Rust `Vec::sort_unstable` on strings (ascending lexicographic order),
embedded as insertion sort. -/
def insertSorted (s : String) : List String → List String
  | [] => [s]
  | t :: ts => if strLt t s then t :: insertSorted s ts else s :: t :: ts

/-- Sorts a list of strings ascending, as `sort_unstable` does. -/
def sortStrings (l : List String) : List String :=
  l.foldr insertSorted []

/-- Rust `Vec::join(",")`. -/
def joinComma : List String → String
  | [] => ""
  | [s] => s
  | s :: rest => s ++ "," ++ joinComma rest

/-! ### Knowledge-base parsing (`required_properties.rs`) -/

/-- One record of the knowledge-base CSV, as parsed by the closure inside
`create_required_props_for`: the three `pop().expect(..)` calls take the
last three comma-separated fields (props, method, service); a record with
fewer than three fields panics, embedded as `none`. -/
def parse_record (record : String) : Option (String × String × List String) :=
  match (strSplitOn ',' record).reverse with
  | props :: method :: service :: _ => some (service, method, strSplitWhitespace props)
  | _ => none

/-- Maps `f` over a list, failing if any element fails: the embedding of a
`collect` whose element conversion may panic. -/
def listMapOption (f : α → Option β) : List α → Option (List β)
  | [] => some []
  | a :: as =>
    match f a, listMapOption f as with
    | some b, some bs => some (b :: bs)
    | _, _ => none

/-- The fold of `create_required_props_for` that groups the parsed records
into `method -> (service -> required props)`, using `entry().or_default()`
and `extend`. -/
def create_required_props_map_for (recs : List (String × String × List String)) :
    RequiredPropertiesMap :=
  recs.foldl
    (fun acc r =>
      assocUpdate r.2.1 (fun m => assocUpdate r.1 (fun l => l ++ r.2.2) [] m) [] acc)
    []

/-- `create_required_props_for` from `required_properties.rs`: splits the
source on newlines, drops empty lines, parses each record (a parse panic
makes the whole load fail, embedded as `none`) and folds the records into
the map. -/
def create_required_props_for (props : String) : Option RequiredPropertiesMap :=
  (listMapOption parse_record ((strSplitOn '\n' props).filter (fun m => !m.data.isEmpty))).map
    create_required_props_map_for

/-! ### Resolution engine (`visitor.rs`) -/

/-- `try_to_get_sdk_from_name`: strips the substrings `"client"` and `"_"`. -/
def try_to_get_sdk_from_name (name : String) : String :=
  strRemove (strRemove name "client") "_"

/-- `try_to_get_sdk_from_client`. -/
def try_to_get_sdk_from_client (client : Client) : String :=
  match client.sdk with
  | some sdk => sdk
  | none =>
    match client.name with
    | some name => try_to_get_sdk_from_name name
    | none => "unknown"

/-- `MethodVisitor::required_props_for_client`: a client with a known sdk
that is a candidate key wins; otherwise a known binding name is stripped
via `try_to_get_sdk_from_name` and looked up; otherwise nothing. -/
def required_props_for_client (hm : ServiceMap) (client : Client) : Option (List String) :=
  match client.sdk with
  | some sdk =>
    match assocGet hm sdk with
    | some props => some props
    | none =>
      match client.name with
      | some n => assocGet hm (try_to_get_sdk_from_name n)
      | none => none
  | none =>
    match client.name with
    | some n => assocGet hm (try_to_get_sdk_from_name n)
    | none => none

/-- `results_that_are_all_the_same` from `visitor.rs`: the fold over the
values of the per-method service map, in iteration order. -/
def results_that_are_all_the_same (hm : ServiceMap) : Bool × List String :=
  hm.foldl
    (fun acc curr =>
      if acc.2.isEmpty || !acc.1 then (acc.1, curr.2)
      else if acc.2 == curr.2 then (true, curr.2)
      else (false, curr.2))
    (true, [])

/-- `MethodVisitor::get_required_props_for`: resolves which service's
required-property list applies to `function_call`, or returns the list of
candidate service names on failure. `hm` is the per-method service map
(the `expect`ed lookup result), `clients` the hint set in iteration order,
`selected_sdks` the attribute's sdk list. -/
def get_required_props_for (hm : ServiceMap) (clients : List Client)
    (function_call : MethodCallWithReceiver) (selected_sdks : List String) :
    Except (List String) (String × List String) :=
  match hm with
  | [(k, v)] => Except.ok (k, v)
  | _ =>
    let same := results_that_are_all_the_same hm
    if same.1 then
      Except.ok (joinComma (sortStrings (hm.map Prod.fst)), same.2)
    else
      let selRes : Option (String × List String) :=
        if selected_sdks.isEmpty then none
        else
          let results : List (String × List String) :=
            selected_sdks.filterMap (fun sdk => (assocGet hm sdk).map (fun r => (sdk, r)))
          let tie : Option (String × List String) :=
            if 1 < results.length then
              match function_call.receiver with
              | some receiver =>
                let sdk := try_to_get_sdk_from_name receiver
                match (results.filter (fun r => r.1 == sdk)).getLast? with
                | some found => some (sdk, found.2)
                | none => none
              | none => none
            else none
          match tie with
          | some res => some res
          | none =>
            match results.getLast? with
            | some found => some (selected_sdks.headD "", found.2)
            | none => none
      match selRes with
      | some res => Except.ok res
      | none =>
        let recvRes : Option (String × List String) :=
          match function_call.receiver with
          | some receiver =>
            match required_props_for_client hm { name := some receiver, sdk := none } with
            | some found => some (try_to_get_sdk_from_name receiver, found)
            | none => none
          | none => none
        match recvRes with
        | some res => Except.ok res
        | none =>
          let client_results : List (Client × List String) :=
            clients.filterMap (fun c =>
              (required_props_for_client hm c).map (fun r => (c, r)))
          match client_results.getLast? with
          | none => Except.error (hm.map Prod.fst)
          | some lastClient =>
            if 1 < client_results.length && function_call.receiver.isSome then
              let chosen :=
                (client_results.find? (fun p =>
                  p.1.name.isSome && p.1.name == function_call.receiver)).getD lastClient
              Except.ok (try_to_get_sdk_from_client chosen.1, chosen.2)
            else
              Except.ok (try_to_get_sdk_from_client lastClient.1, lastClient.2)

/-- The argument window of `find_improper_usages` (lines 65-72 of
`visitor.rs`): names taken from the front of the remaining calls while the
name is not `"send"` and is either the anchor's name or unknown to the
knowledge base. -/
def arguments_for_function (required_props : RequiredPropertiesMap) (anchor_name : String)
    (calls : List MethodCallWithReceiver) : List String :=
  (calls.map (fun v => v.method_call)).takeWhile
    (fun v => v != "send" && (v == anchor_name || (assocGet required_props v).isNone))

/-- The `drain(0..arguments_for_function.len())` of `find_improper_usages`:
what remains of the relevant calls after the window is consumed. -/
def remaining_after_segment (required_props : RequiredPropertiesMap) (anchor_name : String)
    (skipped : List MethodCallWithReceiver) : List MethodCallWithReceiver :=
  skipped.drop (arguments_for_function required_props anchor_name skipped).length

/-- The receiver filter of `find_improper_usages` (lines 74-88): `true`
when the anchor has a receiver, the client set is non-empty, and no
client's name equals the receiver. -/
def receiver_not_a_client (clients : List Client) (anchor : MethodCallWithReceiver) : Bool :=
  match anchor.receiver with
  | some receiver => !clients.isEmpty && !((clients.filterMap Client.name).contains receiver)
  | none => false

/-- The missing-argument diff (lines 104-109): required names not present
in the argument window. -/
def missing_required_args (required window : List String) : List String :=
  required.filter (fun c => !(window.contains c))

/-- Packaging of one resolved segment's contribution: a `Missing` finding
if the diff is non-empty, followed by the findings of the rest of the
analysis, whose completion flag is passed through. -/
def segment_result (anchor : MethodCallWithReceiver) (sdk : String) (missing : List String)
    (later : List UsageFinds × Bool) : List UsageFinds × Bool :=
  ((if missing.isEmpty then [] else
      [UsageFinds.improper anchor.span anchor.method_call missing sdk]) ++ later.1,
   later.2)

/-- The `while` loop of `MethodVisitor::find_improper_usages`, on the
already-reversed call list. The Bool is `true` when the Rust loop returns,
`false` when `fuel` iterations were not enough (the findings accumulated
so far are still reported in the first component). -/
def find_improper_usages_from (required_props : RequiredPropertiesMap) (clients : List Client)
    (selected_sdks : List String) :
    Nat → List MethodCallWithReceiver → List UsageFinds × Bool
  | _, [] => ([], true)
  | 0, _ :: _ => ([], false)
  | fuel + 1, m :: ms =>
    match (m :: ms).dropWhile (fun mc => (assocGet required_props mc.method_call).isNone) with
    | [] => ([], true)
    | anchor :: tail =>
      match assocGet required_props anchor.method_call with
      | none => ([], false)
      | some hm =>
        if receiver_not_a_client clients anchor then
          find_improper_usages_from required_props clients selected_sdks fuel
            (remaining_after_segment required_props anchor.method_call (anchor :: tail))
        else
          match get_required_props_for hm clients anchor selected_sdks with
          | Except.error sdks =>
            ([UsageFinds.unknown anchor.span anchor.method_call sdks], true)
          | Except.ok (sdk, required) =>
            segment_result anchor sdk
              (missing_required_args required
                (arguments_for_function required_props anchor.method_call (anchor :: tail)))
              (find_improper_usages_from required_props clients selected_sdks fuel
                (remaining_after_segment required_props anchor.method_call (anchor :: tail)))

/-- `MethodVisitor::find_improper_usages`: the recorded calls are processed
in reverse of recording order. -/
def find_improper_usages (required_props : RequiredPropertiesMap) (clients : List Client)
    (method_calls : List MethodCallWithReceiver) (selected_sdks : List String)
    (fuel : Nat) : List UsageFinds × Bool :=
  find_improper_usages_from required_props clients selected_sdks fuel method_calls.reverse

/-! ### Client inference (`visit_local` and `analyze_signature`) -/

/-- The shape of a binding pattern, as matched by the source: a plain
identifier or anything else. -/
inductive RPat where
  | ident (name : String)
  | other
deriving DecidableEq, Repr

/-- The shape of a local initializer, as matched by `visit_local`: a call
expression whose callee is a path (with its segment names), or any other
initializer shape. -/
inductive InitExpr where
  | callPath (segments : List String)
  | otherInit
deriving DecidableEq, Repr

/-- The client extraction of `MethodVisitor::visit_local` (lines 340-370):
the client inserted into the hint set for one local declaration, if any. -/
def visit_local_client (pat : RPat) (init : Option InitExpr) : Option Client :=
  match init with
  | some (InitExpr.callPath segments) =>
    if segments.contains "Client" then
      some
        { name :=
            match pat with
            | RPat.ident i => some i
            | RPat.other => none,
          sdk :=
            (segments.find? (fun s => strContainsSub s "aws_sdk_")).map
              (fun s => strRemove s "aws_sdk_") }
    else none
  | _ => none

/-- The shape of one function argument, as matched by `analyze_signature`:
a typed argument whose type is a path (with pattern and type segments), a
typed argument of another type shape, or a receiver argument. -/
inductive FnArgE where
  | typed (pat : RPat) (typeSegments : List String)
  | typedOther (pat : RPat)
  | receiverArg
deriving DecidableEq, Repr

/-- The per-argument client extraction of `analyze_signature`
(lines 373-413). -/
def analyze_signature_arg : FnArgE → Option Client
  | FnArgE.typed pat segs =>
    match segs.getLast? with
    | none => none
    | some last =>
      if last == "Client" then
        some
          { name :=
              match pat with
              | RPat.ident i => some i
              | RPat.other => none,
            sdk :=
              match segs.dropLast.getLast? with
              | some earlier =>
                if strStarts earlier "aws_sdk_" then some (strRemove earlier "aws_sdk_")
                else none
              | none => none }
      else none
  | _ => none

/-- `analyze_signature`: the hints collected from all arguments. -/
def analyze_signature (args : List FnArgE) : List Client :=
  args.filterMap analyze_signature_arg

/-! ### Helper lemmas -/

theorem dropWhile_head_false {p : α → Bool} {l : List α} {a : α} {l' : List α}
    (h : l.dropWhile p = a :: l') : p a = false := by
  induction l with
  | nil => simp [List.dropWhile] at h
  | cons x xs ih =>
    rw [List.dropWhile_cons] at h
    by_cases hx : p x = true
    · rw [if_pos hx] at h
      exact ih h
    · rw [if_neg hx] at h
      injection h with h1 _
      subst h1
      simpa using hx

theorem dropWhile_length_le (p : α → Bool) (l : List α) :
    (l.dropWhile p).length ≤ l.length :=
  (List.dropWhile_sublist p).length_le

theorem drop_takeWhile_length (p : α → Bool) (l : List α) :
    l.drop (l.takeWhile p).length = l.dropWhile p := by
  calc l.drop (l.takeWhile p).length
      = (l.takeWhile p ++ l.dropWhile p).drop (l.takeWhile p).length := by
        rw [List.takeWhile_append_dropWhile]
    _ = l.dropWhile p := List.drop_left _ _

theorem contains_eq_false_of_not_mem [BEq α] [LawfulBEq α] {l : List α} {a : α}
    (h : a ∉ l) : l.contains a = false := by
  cases hc : l.contains a
  · rfl
  · exact absurd (List.elem_iff.mp hc) h

theorem foldl_const_state {α σ : Type _} (f : σ → α → σ) (s : σ)
    (P : α → Prop) (hf : ∀ b, P b → f s b = s) :
    ∀ l : List α, (∀ b ∈ l, P b) → l.foldl f s = s := by
  intro l
  induction l with
  | nil => intro _; rfl
  | cons b bs ih =>
    intro h
    rw [List.foldl_cons, hf b (h b (by simp))]
    exact ih fun x hx => h x (by simp [hx])

theorem results_that_are_all_the_same_const (a : String × List String) (rest : ServiceMap)
    (v : List String) (ha : a.2 = v) (hall : ∀ p ∈ rest, p.2 = v) :
    results_that_are_all_the_same (a :: rest) = (true, v) := by
  unfold results_that_are_all_the_same
  rw [List.foldl_cons]
  have hinit : (((true, ([] : List String)).2.isEmpty || !(true, ([] : List String)).1)) = true := by
    simp
  rw [if_pos hinit, ha]
  exact foldl_const_state _ _ (fun p => p.2 = v)
    (fun b hb => by by_cases hv : v.isEmpty <;> simp [hv, hb]) rest hall

theorem get_required_props_for_error {hm : ServiceMap} {clients : List Client}
    {fc : MethodCallWithReceiver} {sel : List String} {sdks : List String}
    (h : get_required_props_for hm clients fc sel = Except.error sdks) :
    sdks = hm.map Prod.fst := by
  unfold get_required_props_for at h
  split at h
  · exact absurd h (by simp)
  · simp only [] at h
    split at h
    · exact absurd h (by simp)
    · split at h
      · exact absurd h (by simp)
      · split at h
        · exact absurd h (by simp)
        · split at h
          · injection h with h1
            exact h1.symm
          · split at h <;> exact absurd h (by simp)

/-! ### Claim C3 -/

/-- C3 (counterexample): with the knowledge base knowing only
`send_message`, the window collected for the anchor `send_message` followed
by a `send` call is `["send_message"]` — the terminal-marker call is NOT
included in the window, and it is NOT removed from the remaining call list:
it stays as the head of the remainder. -/
theorem claim_C3_counterexample :
    arguments_for_function [("send_message", [("s3", ["queue_url"])])] "send_message"
      [⟨"send_message", none, 0⟩, ⟨"send", none, 1⟩] = ["send_message"] ∧
    "send" ∉ arguments_for_function [("send_message", [("s3", ["queue_url"])])] "send_message"
      [⟨"send_message", none, 0⟩, ⟨"send", none, 1⟩] ∧
    remaining_after_segment [("send_message", [("s3", ["queue_url"])])] "send_message"
      [⟨"send_message", none, 0⟩, ⟨"send", none, 1⟩] = [⟨"send", none, 1⟩] := by
  decide

/-- C3 (amended): the window consumes calls while the name is not the
terminal marker `"send"` and is either the anchor's name or absent from
the knowledge base; it stops BEFORE the terminal-marker call, which is not
consumed: the first call left after the window, if any, is either the
`"send"` call itself or a different knowledge-base-relevant name. -/
theorem claim_C3_amended (kb : RequiredPropertiesMap) (anchor_name : String)
    (calls : List MethodCallWithReceiver) :
    (∀ v ∈ arguments_for_function kb anchor_name calls,
      v ≠ "send" ∧ (v = anchor_name ∨ assocGet kb v = none)) ∧
    (∀ v rest,
      (calls.map (fun m => m.method_call)).drop
          (arguments_for_function kb anchor_name calls).length = v :: rest →
      v = "send" ∨ (v ≠ anchor_name ∧ (assocGet kb v).isSome = true)) := by
  constructor
  · intro v hv
    have hp := List.mem_takeWhile_imp hv
    simp only [Bool.and_eq_true, Bool.or_eq_true, bne_iff_ne, ne_eq, beq_iff_eq,
      Option.isNone_iff_eq_none] at hp
    exact ⟨hp.1, hp.2⟩
  · intro v rest h
    simp only [arguments_for_function] at h
    rw [drop_takeWhile_length] at h
    have hp := dropWhile_head_false h
    by_cases hsend : v = "send"
    · exact Or.inl hsend
    · right
      have hbne : (v != "send") = true := by simp [hsend]
      rw [hbne, Bool.true_and] at hp
      rw [Bool.or_eq_false_iff] at hp
      refine ⟨by simpa using hp.1, ?_⟩
      cases hv : assocGet kb v with
      | none => rw [hv] at hp; simp at hp
      | some _ => rfl

/-- C3 (amended, witness): at the concrete segment of the counterexample,
the first call left after the window is the `"send"` call. -/
theorem claim_C3_amended_witness :
    "send" = "send" ∨ ("send" ≠ "send_message" ∧
      (assocGet [("send_message", [("s3", ["queue_url"])])] "send").isSome = true) :=
  (claim_C3_amended [("send_message", [("s3", ["queue_url"])])] "send_message"
    [⟨"send_message", none, 0⟩, ⟨"send", none, 1⟩]).2 "send" [] (by decide)

/-! ### Claim C4 -/

/-- C4 (counterexample): the claim's "if and only if" fails. With service
maps `aaa -> []` and `bbb -> ["x"]` (not pairwise identical), resolution
still succeeds via the identical-lists rule, with the sorted comma-joined
label and the list `["x"]`: the fold of `results_that_are_all_the_same`
treats a leading empty list as equal to anything. -/
theorem claim_C4_counterexample :
    get_required_props_for [("aaa", []), ("bbb", ["x"])] [] ⟨"m", none, 0⟩ [] =
      Except.ok ("aaa,bbb", ["x"]) ∧
    ¬ (∀ p1 ∈ ([("aaa", []), ("bbb", ["x"])] : ServiceMap),
       ∀ p2 ∈ ([("aaa", []), ("bbb", ["x"])] : ServiceMap), p1.2 = p2.2) := by
  constructor
  · decide
  · intro h
    have := h ("aaa", []) (by simp) ("bbb", ["x"]) (by simp)
    simp at this

/-- C4 (amended): if a method's knowledge-base entry maps to more than one
service and all services' required-argument lists are pairwise identical,
resolution succeeds with that common list, and the resolved-service label
is the sorted, comma-joined concatenation of all the service names. (The
converse direction of the original claim fails: the rule can also fire
when an empty list precedes the others, see the counterexample.) -/
theorem claim_C4_amended (hm : ServiceMap) (clients : List Client)
    (fc : MethodCallWithReceiver) (selected : List String) (v : List String)
    (hlen : 2 ≤ hm.length) (hall : ∀ p ∈ hm, p.2 = v) :
    get_required_props_for hm clients fc selected =
      Except.ok (joinComma (sortStrings (hm.map Prod.fst)), v) := by
  obtain ⟨a, rest, rfl⟩ : ∃ a rest, hm = a :: rest := by
    cases hm with
    | nil => simp at hlen
    | cons a rest => exact ⟨a, rest, rfl⟩
  obtain ⟨b, rest2, rfl⟩ : ∃ b rest2, rest = b :: rest2 := by
    cases rest with
    | nil => simp at hlen
    | cons b r => exact ⟨b, r, rfl⟩
  have hsame := results_that_are_all_the_same_const a (b :: rest2) v (hall a (by simp))
    (fun p hp => hall p (by simp [hp]))
  unfold get_required_props_for
  split
  · rename_i k w heq
    simp at heq
  · rw [hsame]
    simp

/-- C4 (amended, witness): two services requiring the same list resolve to
the label `"s3,sqs"` with that list, matching the spec's example. -/
theorem claim_C4_amended_witness :
    get_required_props_for [("s3", ["required_call"]), ("sqs", ["required_call"])] []
      ⟨"some_call", none, 0⟩ [] =
      Except.ok (joinComma (sortStrings
        (([("s3", ["required_call"]), ("sqs", ["required_call"])] : ServiceMap).map Prod.fst)),
        ["required_call"]) ∧
    joinComma (sortStrings
      (([("s3", ["required_call"]), ("sqs", ["required_call"])] : ServiceMap).map Prod.fst)) =
      "s3,sqs" :=
  ⟨claim_C4_amended [("s3", ["required_call"]), ("sqs", ["required_call"])] []
    ⟨"some_call", none, 0⟩ [] ["required_call"] (by decide) (by decide),
   by decide⟩

/-! ### Claim C8 -/

theorem listMapOption_isSome (f : α → Option β) :
    ∀ l : List α, (listMapOption f l).isSome = true ↔ ∀ a ∈ l, (f a).isSome = true := by
  intro l
  induction l with
  | nil => simp [listMapOption]
  | cons a as ih =>
    cases hfa : f a with
    | none => simp [listMapOption, hfa]
    | some b =>
      cases hrest : listMapOption f as with
      | none =>
        simp only [listMapOption, hfa, hrest]
        constructor
        · intro h; simp at h
        · intro h
          have hsome : (listMapOption f as).isSome = true :=
            ih.mpr fun x hx => h x (by simp [hx])
          rw [hrest] at hsome; simp at hsome
      | some bs =>
        simp only [listMapOption, hfa, hrest]
        constructor
        · intro _ x hx
          rcases List.mem_cons.mp hx with rfl | hx2
          · simp [hfa]
          · exact (ih.mp (by rw [hrest]; rfl)) x hx2
        · intro _; rfl

theorem parse_record_isSome (m : String) :
    (parse_record m).isSome = true ↔ 3 ≤ (strSplitOn ',' m).length := by
  unfold parse_record
  rw [← List.length_reverse]
  cases h : (strSplitOn ',' m).reverse with
  | nil => simp
  | cons a t1 =>
    cases t1 with
    | nil => simp
    | cons b t2 =>
      cases t2 with
      | nil => simp
      | cons c t3 =>
        simp only [List.length_cons, Option.isSome_some]
        constructor
        · intro _; omega
        · intro _; trivial

/-- C8 (counterexample): a record with four comma-separated fields is NOT a
fatal load-time error: the parser silently drops the extra leading field
and builds the map from the last three fields. -/
theorem claim_C8_counterexample :
    create_required_props_for "extra,s3,write,bucket object" =
      some [("write", [("s3", ["bucket", "object"])])] ∧
    (strSplitOn ',' "extra,s3,write,bucket object").length ≠ 3 := by
  decide

/-- C8 (amended): loading the knowledge-base source succeeds if and only if
every non-empty line has at least three comma-separated fields; a record
with fewer than three fields is a fatal load-time error, while records
with more than three fields are accepted (their extra leading fields are
silently ignored). -/
theorem claim_C8_amended (props : String) :
    (create_required_props_for props).isSome = true ↔
    ∀ line ∈ (strSplitOn '\n' props).filter (fun m => !m.data.isEmpty),
      3 ≤ (strSplitOn ',' line).length := by
  unfold create_required_props_for
  have hmap : ∀ (o : Option (List (String × String × List String))),
      (o.map create_required_props_map_for).isSome = o.isSome := by
    intro o; cases o <;> rfl
  rw [hmap, listMapOption_isSome]
  constructor
  · intro h line hline
    exact (parse_record_isSome line).mp (h line hline)
  · intro h line hline
    exact (parse_record_isSome line).mpr (h line hline)

/-- C8 (amended, witness): a well-formed three-field source loads. -/
theorem claim_C8_amended_witness :
    (create_required_props_for "s3,write,bucket object").isSome = true :=
  (claim_C8_amended "s3,write,bucket object").mpr (by decide)

/-! ### Claim C9 -/

/-- C9 (counterexample): both client-inference paths can insert a hint with
neither a binding name nor a service: a local `let _ = Client::new();`
(non-identifier pattern, no sdk-prefixed path segment) and a parameter
`_ : Client`. -/
theorem claim_C9_counterexample :
    visit_local_client RPat.other (some (InitExpr.callPath ["Client", "new"])) =
      some { name := none, sdk := none } ∧
    analyze_signature_arg (FnArgE.typed RPat.other ["Client"]) =
      some { name := none, sdk := none } := by
  decide

/-- C9 (amended): a produced hint can have both fields unset, but only when
the binding pattern is not a simple identifier: whenever the pattern binds
an identifier, the hint's binding name is set. -/
theorem claim_C9_amended :
    (∀ pat init c, visit_local_client pat init = some c → c.name = none →
      pat = RPat.other) ∧
    (∀ pat segs c, analyze_signature_arg (FnArgE.typed pat segs) = some c → c.name = none →
      pat = RPat.other) := by
  constructor
  · intro pat init c h hn
    cases pat with
    | other => rfl
    | ident i =>
      exfalso
      cases init with
      | none => simp [visit_local_client] at h
      | some ie =>
        cases ie with
        | otherInit => simp [visit_local_client] at h
        | callPath segs =>
          simp only [visit_local_client] at h
          split at h
          · injection h with h1
            rw [← h1] at hn
            simp at hn
          · cases h
  · intro pat segs c h hn
    cases pat with
    | other => rfl
    | ident i =>
      exfalso
      simp only [analyze_signature_arg] at h
      split at h
      · cases h
      · split at h
        · injection h with h1
          rw [← h1] at hn
          simp at hn
        · cases h

/-- C9 (amended, witness): `let _ = Client::new();` produces the
both-unset hint, and its pattern is indeed not an identifier. -/
theorem claim_C9_amended_witness : RPat.other = RPat.other :=
  (claim_C9_amended).1 RPat.other (some (InitExpr.callPath ["Client", "new"]))
    { name := none, sdk := none } (by decide) (by decide)

/-! ### Claim C10 -/

/-- C10 (counterexample): when the knowledge base maps the method name
`"send"` (the terminal marker itself), the anchor's own name is NOT in its
argument window (the window is empty), and a required argument named like
the anchor IS put into a Missing finding. -/
theorem claim_C10_counterexample :
    find_improper_usages_from [("send", [("s3", ["send"])])] [] [] 1 [⟨"send", none, 0⟩] =
      ([UsageFinds.improper 0 "send" ["send"] "s3"], false) ∧
    arguments_for_function [("send", [("s3", ["send"])])] "send" [⟨"send", none, 0⟩] = [] := by
  decide

/-- C10 (amended): for every segment whose anchor is not named the terminal
marker `"send"`, the anchor call's own method name is included in the
argument window, so a required argument whose name equals the anchor's
method name is never in the missing-argument diff. -/
theorem claim_C10_amended (kb : RequiredPropertiesMap) (anchor : MethodCallWithReceiver)
    (tail : List MethodCallWithReceiver) (required : List String)
    (hsend : anchor.method_call ≠ "send") :
    anchor.method_call ∈ arguments_for_function kb anchor.method_call (anchor :: tail) ∧
    anchor.method_call ∉ missing_required_args required
      (arguments_for_function kb anchor.method_call (anchor :: tail)) := by
  have hmem : anchor.method_call ∈ arguments_for_function kb anchor.method_call (anchor :: tail) := by
    unfold arguments_for_function
    rw [List.map_cons, List.takeWhile_cons]
    have hq : ((anchor.method_call != "send") &&
        (anchor.method_call == anchor.method_call ||
          (assocGet kb anchor.method_call).isNone)) = true := by
      simp [hsend]
    rw [if_pos hq]
    exact List.mem_cons_self _ _
  refine ⟨hmem, ?_⟩
  intro hbad
  unfold missing_required_args at hbad
  have hcond := (List.mem_filter.mp hbad).2
  have hcontains :
      (arguments_for_function kb anchor.method_call (anchor :: tail)).contains
        anchor.method_call = true :=
    List.elem_iff.mpr hmem
  rw [hcontains] at hcond
  simp at hcond

/-- C10 (amended, witness): a concrete anchor named `send_message` whose
required list contains its own name never reports that name missing. -/
theorem claim_C10_amended_witness :
    "send_message" ∈ arguments_for_function [("send_message", [("s3", ["send_message", "q"])])]
      "send_message" [⟨"send_message", none, 0⟩] ∧
    "send_message" ∉ missing_required_args ["send_message", "q"]
      (arguments_for_function [("send_message", [("s3", ["send_message", "q"])])]
        "send_message" [⟨"send_message", none, 0⟩]) :=
  claim_C10_amended [("send_message", [("s3", ["send_message", "q"])])]
    ⟨"send_message", none, 0⟩ [] ["send_message", "q"] (by decide)

/-! ### Claim C2 -/

/-- C2 (counterexample): with candidates `s3 -> [a]`, `sqs -> [b]`, selected
services `[dynamo, sqs, s3]`, no receiver: the first selected entry that is
also a candidate is `sqs`, so the claim predicts `Except.ok ("sqs", ["b"])`;
the code instead labels with the first selected entry overall (`dynamo`,
not even a candidate) and takes the props of the LAST matching entry
(`s3`'s `["a"]`). -/
theorem claim_C2_counterexample :
    get_required_props_for [("s3", ["a"]), ("sqs", ["b"])] [] ⟨"m", none, 0⟩
      ["dynamo", "sqs", "s3"] = Except.ok ("dynamo", ["a"]) ∧
    Except.ok ("dynamo", ["a"]) ≠
      (Except.ok ("sqs", ["b"]) : Except (List String) (String × List String)) := by
  decide

/-- C2 (amended): when the identical-lists rule does not apply, the
selected-services list is non-empty, the anchor has no receiver binding,
and some selected service is a candidate, resolution returns the
required-argument list of the LAST selected entry that is a candidate,
labelled with the FIRST selected entry overall (whether or not it is a
candidate). -/
theorem claim_C2_amended (hm : ServiceMap) (clients : List Client)
    (fc : MethodCallWithReceiver) (selected : List String) (lastFound : String × List String)
    (hsame : (results_that_are_all_the_same hm).1 = false)
    (hsel : selected ≠ [])
    (hlast : (selected.filterMap (fun sdk => (assocGet hm sdk).map (fun r => (sdk, r)))).getLast?
      = some lastFound)
    (hrecv : fc.receiver = none) :
    get_required_props_for hm clients fc selected =
      Except.ok (selected.headD "", lastFound.2) := by
  obtain ⟨a, b, rest2, rfl⟩ : ∃ a b rest2, hm = a :: b :: rest2 := by
    cases hm with
    | nil => simp [results_that_are_all_the_same] at hsame
    | cons a t =>
      cases t with
      | nil => simp [results_that_are_all_the_same] at hsame
      | cons b r => exact ⟨a, b, r, rfl⟩
  unfold get_required_props_for
  split
  · rename_i k w heq
    simp at heq
  · have hselE : selected.isEmpty = false := by
      cases selected with
      | nil => exact absurd rfl hsel
      | cons s ss => rfl
    simp only [hsame, hselE, hrecv, Bool.false_eq_true, if_false, ite_self]
    rw [hlast]

/-- C2 (amended, witness): the counterexample input, via the amended rule:
label `dynamo` (head of selected), props from the last match `("s3",["a"])`. -/
theorem claim_C2_amended_witness :
    get_required_props_for [("s3", ["a"]), ("sqs", ["b"])] [] ⟨"m", none, 0⟩
      ["dynamo", "sqs", "s3"] =
      Except.ok ((["dynamo", "sqs", "s3"] : List String).headD "", ("s3", ["a"]).2) :=
  claim_C2_amended [("s3", ["a"]), ("sqs", ["b"])] [] ⟨"m", none, 0⟩ ["dynamo", "sqs", "s3"]
    ("s3", ["a"]) (by decide) (by decide) (by decide) rfl

/-! ### Claim C5 -/

/-- C5: the same knowledge base, call list and selected services, with the
same set of client hints in two different hash-set iteration orders (a
permutation), produce DIFFERENT findings: the last-considered-client
tie-break depends on the unordered set's iteration order, which differs
between runs. -/
theorem claim_C5_nondeterministic :
    ([⟨some "x", some "s3"⟩, ⟨some "y", some "sqs"⟩] : List Client).Perm
      [⟨some "y", some "sqs"⟩, ⟨some "x", some "s3"⟩] ∧
    find_improper_usages [("some_call", [("s3", ["required_call"]), ("sqs", ["different_call"])])]
      [⟨some "x", some "s3"⟩, ⟨some "y", some "sqs"⟩] [⟨"some_call", none, 0⟩] [] 2 ≠
    find_improper_usages [("some_call", [("s3", ["required_call"]), ("sqs", ["different_call"])])]
      [⟨some "y", some "sqs"⟩, ⟨some "x", some "s3"⟩] [⟨"some_call", none, 0⟩] [] 2 := by
  decide

/-! ### Claim C1 -/

/-- C1: when the analysis reaches an anchor that passes the receiver filter
and whose service cannot be resolved, it emits exactly one Ambiguous
finding, whose candidate services are all the keys of the method's
knowledge-base entry, and produces no further findings: the whole result
is that single finding, later calls included. -/
theorem claim_C1 (kb : RequiredPropertiesMap) (clients : List Client) (selected : List String)
    (fuel : Nat) (l : List MethodCallWithReceiver) (anchor : MethodCallWithReceiver)
    (tail : List MethodCallWithReceiver) (hm : ServiceMap) (sdks : List String)
    (hskip : l.dropWhile (fun mc => (assocGet kb mc.method_call).isNone) = anchor :: tail)
    (hget : assocGet kb anchor.method_call = some hm)
    (hrecv : receiver_not_a_client clients anchor = false)
    (herr : get_required_props_for hm clients anchor selected = Except.error sdks) :
    find_improper_usages_from kb clients selected (fuel + 1) l =
      ([UsageFinds.unknown anchor.span anchor.method_call sdks], true) ∧
    sdks = hm.map Prod.fst := by
  refine ⟨?_, get_required_props_for_error herr⟩
  obtain ⟨m, ms, rfl⟩ : ∃ m ms, l = m :: ms := by
    cases l with
    | nil => simp [List.dropWhile] at hskip
    | cons m ms => exact ⟨m, ms, rfl⟩
  unfold find_improper_usages_from
  split
  · rename_i heq
    simp [hskip] at heq
  · rename_i anc tl heq
    rw [hskip] at heq
    injection heq with h1 h2
    subst h1
    subst h2
    split
    · rename_i hnone
      rw [hget] at hnone
      cases hnone
    · rename_i hm2 hsome
      rw [hget] at hsome
      injection hsome with h3
      subst h3
      rw [if_neg (by simp [hrecv] : ¬ receiver_not_a_client clients anchor = true)]
      split
      · rename_i sdks2 herr2
        rw [herr] at herr2
        injection herr2 with h4
        subst h4
        rfl
      · rename_i pr hok
        rw [herr] at hok
        cases hok

/-- C1 (witness): an unresolvable two-service anchor followed by a later
analyzable call yields exactly the one Ambiguous finding, candidates being
all keys of the entry; the later call produces nothing. -/
theorem claim_C1_witness :
    find_improper_usages_from [("m", [("s3", ["a"]), ("sqs", ["b"])]), ("rm", [("s3", ["q"])])]
      [] [] 2 [⟨"m", none, 0⟩, ⟨"rm", none, 1⟩] =
      ([UsageFinds.unknown 0 "m" ["s3", "sqs"]], true) ∧
    ["s3", "sqs"] = ([("s3", ["a"]), ("sqs", ["b"])] : ServiceMap).map Prod.fst :=
  claim_C1 [("m", [("s3", ["a"]), ("sqs", ["b"])]), ("rm", [("s3", ["q"])])] [] [] 1
    [⟨"m", none, 0⟩, ⟨"rm", none, 1⟩] ⟨"m", none, 0⟩ [⟨"rm", none, 1⟩]
    [("s3", ["a"]), ("sqs", ["b"])] ["s3", "sqs"] (by decide) (by decide) (by decide) (by decide)

/-! ### Claim C7 -/

/-- C7: when the anchor has a receiver binding, the client-hint set is
non-empty and no hint's binding name equals the receiver, the whole window
is dropped without a finding and the analysis continues on the rest. -/
theorem claim_C7 (kb : RequiredPropertiesMap) (clients : List Client) (selected : List String)
    (fuel : Nat) (l : List MethodCallWithReceiver) (anchor : MethodCallWithReceiver)
    (tail : List MethodCallWithReceiver) (r : String)
    (hskip : l.dropWhile (fun mc => (assocGet kb mc.method_call).isNone) = anchor :: tail)
    (hrecv : anchor.receiver = some r)
    (hcl : clients ≠ [])
    (hnomatch : r ∉ clients.filterMap Client.name) :
    find_improper_usages_from kb clients selected (fuel + 1) l =
      find_improper_usages_from kb clients selected fuel
        (remaining_after_segment kb anchor.method_call (anchor :: tail)) := by
  have hfilter : receiver_not_a_client clients anchor = true := by
    unfold receiver_not_a_client
    rw [hrecv]
    show (!clients.isEmpty && !((clients.filterMap Client.name).contains r)) = true
    have h1 : clients.isEmpty = false := by
      cases clients with
      | nil => exact absurd rfl hcl
      | cons c cs => rfl
    rw [h1, contains_eq_false_of_not_mem hnomatch]
    rfl
  obtain ⟨m, ms, rfl⟩ : ∃ m ms, l = m :: ms := by
    cases l with
    | nil => simp [List.dropWhile] at hskip
    | cons m ms => exact ⟨m, ms, rfl⟩
  conv_lhs => unfold find_improper_usages_from
  split
  · rename_i heq
    simp [hskip] at heq
  · rename_i anc tl heq
    rw [hskip] at heq
    injection heq with h1 h2
    subst h1
    subst h2
    split
    · rename_i hnone
      have hp := dropWhile_head_false hskip
      rw [hnone] at hp
      simp at hp
    · rename_i hm hsome
      rw [if_pos hfilter]

/-- C7 (witness): a relevant `send_message` anchor reached through the
unknown receiver `foo`, with one known client `other`, is skipped: one
step of the analysis just recurses on the remainder. -/
theorem claim_C7_witness :
    find_improper_usages_from [("send_message", [("s3", ["queue_url"])])]
      [⟨some "other", none⟩] [] 2 [⟨"send_message", some "foo", 0⟩] =
      find_improper_usages_from [("send_message", [("s3", ["queue_url"])])]
        [⟨some "other", none⟩] [] 1
        (remaining_after_segment [("send_message", [("s3", ["queue_url"])])] "send_message"
          [⟨"send_message", some "foo", 0⟩]) :=
  claim_C7 [("send_message", [("s3", ["queue_url"])])] [⟨some "other", none⟩] [] 1
    [⟨"send_message", some "foo", 0⟩] ⟨"send_message", some "foo", 0⟩ [] "foo"
    (by decide) rfl (by decide) (by decide)

/-! ### Claim C6 -/

/-- C6 (counterexample): if the knowledge base maps the terminal marker
`"send"` itself as a method name, an anchor named `send` has an EMPTY
argument window, the iteration removes nothing from the remaining list,
and the loop never terminates: even with fuel 5 a one-element list is not
finished. The "strictly shrinks" invariant fails. -/
theorem claim_C6_counterexample :
    ([⟨"send", none, 0⟩] : List MethodCallWithReceiver).dropWhile
      (fun mc => (assocGet [("send", [("s3", ["a"])])] mc.method_call).isNone) =
      [⟨"send", none, 0⟩] ∧
    arguments_for_function [("send", [("s3", ["a"])])] "send" [⟨"send", none, 0⟩] = [] ∧
    remaining_after_segment [("send", [("s3", ["a"])])] "send" [⟨"send", none, 0⟩] =
      [⟨"send", none, 0⟩] ∧
    (find_improper_usages_from [("send", [("s3", ["a"])])] [] [] 5 [⟨"send", none, 0⟩]).2 =
      false := by
  decide

/-- C6 (amended): provided the terminal marker `"send"` is not itself a
knowledge-base method key, every segment consumption strictly shrinks the
remaining call list (the remainder is not longer than the anchor's tail),
and the loop terminates: any fuel exceeding the list length completes the
analysis. -/
theorem claim_C6_amended (kb : RequiredPropertiesMap) (clients : List Client)
    (selected : List String) (hsend : assocGet kb "send" = none) :
    (∀ (anchor : MethodCallWithReceiver) (tail : List MethodCallWithReceiver),
      (assocGet kb anchor.method_call).isSome = true →
      (remaining_after_segment kb anchor.method_call (anchor :: tail)).length ≤ tail.length) ∧
    (∀ (fuel : Nat) (l : List MethodCallWithReceiver), l.length < fuel →
      (find_improper_usages_from kb clients selected fuel l).2 = true) := by
  have hwin : ∀ (anchor : MethodCallWithReceiver) (tail : List MethodCallWithReceiver),
      (assocGet kb anchor.method_call).isSome = true →
      1 ≤ (arguments_for_function kb anchor.method_call (anchor :: tail)).length := by
    intro anchor tail hsome
    have hne : anchor.method_call ≠ "send" := by
      intro hEq
      rw [hEq, hsend] at hsome
      simp at hsome
    unfold arguments_for_function
    rw [List.map_cons, List.takeWhile_cons]
    have hq : ((anchor.method_call != "send") &&
        (anchor.method_call == anchor.method_call ||
          (assocGet kb anchor.method_call).isNone)) = true := by
      simp [hne]
    rw [if_pos hq]
    simp
  have hshrink : ∀ (anchor : MethodCallWithReceiver) (tail : List MethodCallWithReceiver),
      (assocGet kb anchor.method_call).isSome = true →
      (remaining_after_segment kb anchor.method_call (anchor :: tail)).length ≤ tail.length := by
    intro anchor tail hsome
    have h1 := hwin anchor tail hsome
    unfold remaining_after_segment
    rw [List.length_drop]
    simp only [List.length_cons]
    omega
  refine ⟨hshrink, ?_⟩
  intro fuel
  induction fuel with
  | zero => intro l hl; exact absurd hl (Nat.not_lt_zero _)
  | succ n ih =>
    intro l hl
    cases l with
    | nil => rfl
    | cons m ms =>
      conv_lhs => unfold find_improper_usages_from
      split
      · rfl
      · rename_i anchor tail heq
        have hp := dropWhile_head_false heq
        have hsome : (assocGet kb anchor.method_call).isSome = true := by
          cases hg : assocGet kb anchor.method_call with
          | none => rw [hg] at hp; simp at hp
          | some _ => rfl
        have hlen1 : (anchor :: tail).length ≤ (m :: ms).length := by
          rw [← heq]
          exact dropWhile_length_le _ _
        have hrest :
            (remaining_after_segment kb anchor.method_call (anchor :: tail)).length < n := by
          have h2 := hshrink anchor tail hsome
          simp only [List.length_cons] at hlen1 hl
          omega
        split
        · rename_i hnone
          rw [hnone] at hsome
          simp at hsome
        · rename_i hm hsome2
          split
          · exact ih _ hrest
          · split
            · rfl
            · exact ih _ hrest

/-- C6 (amended, witness): with a knowledge base not containing `"send"`,
fuel one more than the list length finishes the analysis. -/
theorem claim_C6_amended_witness :
    (find_improper_usages_from [("send_message", [("s3", ["queue_url"])])] [] [] 2
      [⟨"send_message", none, 0⟩]).2 = true :=
  (claim_C6_amended [("send_message", [("s3", ["queue_url"])])] [] [] (by decide)).2 2
    [⟨"send_message", none, 0⟩] (by decide)
